import Mathlib

/-!
The partial-update clause builder and the job model of express-jobly.

A shallow embedding of `helpers/sql.js` (`sqlForPartialUpdate`) and of
`models/job.js` (`Job.findAll`, `Job.get`, `Job.update`, `Job.remove`), with the
properties of the statements and parameter lists they hand to the database.

Modelling conventions.

* A JavaScript primitive is a `JSVal`.  Numbers are the integer-valued ones
  (`num n`), which `JSVal.toStr` renders in plain decimal as JavaScript does below
  10^21 in magnitude; fractional numbers, `NaN` and the infinities are not
  represented.
* A plain object is a `JSObject`: its own enumerable string-keyed properties in
  the order `Object.keys` lists them.  A property read that misses the own
  properties goes on to `Object.prototype`: `objectPrototypeText` lists its
  members, and the read `jsToSql[colName]` of the clause builder consults it.
  The keys the job model reads by name (`minSalary`, `hasEquity`, `title`,
  `companyHandle`) are none of those members, so for them `JSObject.get` is the
  whole read.
* `db.query(text, params)` is a function `Db σ` of the statement text, the
  parameter array and the current store state, giving the returned rows and the
  next state.  Every `async` method becomes a function returning an `Outcome`:
  what it returned or threw, the statements it issued in order, and the store
  state it left.
-/

namespace Jobly

/-! JavaScript data -/

/-- A JavaScript primitive value. -/
inductive JSVal where
  | undefined
  | null
  | bool (b : Bool)
  | num (n : Int)
  | str (s : String)
  deriving DecidableEq, Repr

/-- The `ToBoolean` conversion, as applied by `||` and `!`. -/
def JSVal.truthy : JSVal → Bool
  | .undefined => false
  | .null => false
  | .bool b => b
  | .num n => n != 0
  | .str s => s != ""

/-- The `ToString` conversion, as applied inside a template literal. -/
def JSVal.toStr : JSVal → String
  | .undefined => "undefined"
  | .null => "null"
  | .bool true => "true"
  | .bool false => "false"
  | .num n => toString n
  | .str s => s

/-- A plain object: its own properties, in `Object.keys` order. -/
abbrev JSObject := List (String × JSVal)

/-- The `Object.keys(o)` array. -/
def JSObject.keys (o : JSObject) : List String := o.map Prod.fst

/-- The `Object.values(o)` array. -/
def JSObject.values (o : JSObject) : List JSVal := o.map Prod.snd

/-- The property read `o[k]`: the value stored under `k`, `undefined` if none. -/
def JSObject.get (o : JSObject) (k : String) : JSVal :=
  match o.lookup k with
  | some v => v
  | none => .undefined

/-- The objects whose keys are pairwise distinct, as those of a JavaScript object are. -/
def JSObject.WellFormed (o : JSObject) : Prop := o.keys.Nodup

instance (o : JSObject) : Decidable o.WellFormed :=
  inferInstanceAs (Decidable o.keys.Nodup)

/-! Errors -/

/-- Modelled from the spec: the error classes of `expressError.js`, which is not
among the sources.  An error is a tagged kind with its message; `BadRequestError`
is the kind the spec calls `InvalidInputError`. -/
inductive Error where
  | BadRequestError (message : String)
  | NotFoundError (message : String)
  deriving DecidableEq, Repr

/-! The helper `helpers/sql.js` -/

/-- The object `{ setCols, values }` returned by `sqlForPartialUpdate`. -/
structure SetClause where
  setCols : String
  values : List JSVal
  deriving DecidableEq, Repr

/-- The members a plain object inherits from `Object.prototype` under Node.js, each
with the string a template literal renders it as: the built-in functions give
their source text, `constructor` is the function `Object`, and `__proto__` is
`Object.prototype` itself.  Every one of them is an object, hence truthy. -/
def objectPrototypeText (k : String) : Option String :=
  if k = "constructor" then some "function Object() \x7b [native code] \x7d"
  else if k = "__proto__" then some "[object Object]"
  else if k ∈ ["__defineGetter__", "__defineSetter__", "hasOwnProperty",
      "__lookupGetter__", "__lookupSetter__", "isPrototypeOf", "propertyIsEnumerable",
      "toString", "valueOf", "toLocaleString"] then
    some ("function " ++ k ++ "() \x7b [native code] \x7d")
  else none

/-- The expression `jsToSql[colName] || colName`, converted to a string by the
template literal around it.  The read `jsToSql[colName]` finds the table's own
property when there is one, and otherwise the member of `Object.prototype` of that
name, if any. -/
def columnFor (jsToSql : JSObject) (colName : String) : String :=
  match jsToSql.lookup colName with
  | some v => if v.truthy then v.toStr else colName
  | none =>
    match objectPrototypeText colName with
    | some text => text
    | none => colName

/-- The callback of `keys.map`: the template literal with the quoted column name,
the equals sign and `$` followed by `idx + 1`. -/
def colFragment (jsToSql : JSObject) (idx : Nat) (colName : String) : String :=
  "\"" ++ columnFor jsToSql colName ++ "\"=$" ++ toString (idx + 1)

/-- The function `sqlForPartialUpdate(dataToUpdate, jsToSql)`. -/
def sqlForPartialUpdate (dataToUpdate jsToSql : JSObject) : Except Error SetClause :=
  let keys := dataToUpdate.keys
  if keys.length = 0 then .error (.BadRequestError "No data")
  else
    let cols := keys.mapIdx (fun idx colName => colFragment jsToSql idx colName)
    .ok { setCols := ", ".intercalate cols, values := dataToUpdate.values }

/-! The store -/

/-- A row returned by the database: an object of column values. -/
abbrev Row := JSObject

/-- The call `db.query(text, params)` of the module `db.js`, which is not among the
sources and is a parameter of every method: given the statement text, the
parameter array and the store state, the rows of the result and the state after
the statement. -/
abbrev Db (σ : Type) := String → List JSVal → σ → List Row × σ

/-- What a call of a model method amounts to: the value it resolved to or the
error it threw, the statements it sent to `db.query` in order (text and
parameter array), and the state of the store afterwards. -/
structure Outcome (σ α : Type) where
  result : Except Error α
  issued : List (String × List JSVal)
  state : σ

/-! The model `models/job.js`: `Job.findAll` -/

/-- The initial value of `querySql` in `Job.findAll`. -/
def findAllSelect : String :=
  "SELECT \n" ++
  "                        j.id, \n" ++
  "                        j.title, \n" ++
  "                        j.salary, \n" ++
  "                        j.equity, \n" ++
  "                        j.company_handle AS \"companyHandle\",\n" ++
  "                        c.name AS \"companyName\"\n" ++
  "                    FROM jobs j \n" ++
  "                    LEFT JOIN companies AS c ON c.handle = j.company_handle"

/-- The three local variables of `Job.findAll` at the point of the `db.query` call. -/
structure FindAllVars where
  querySql : String
  whereExpressions : List String
  queryValues : List JSVal
  deriving DecidableEq, Repr

/-- The body of `Job.findAll` up to the `db.query` call.  The argument is `none`
when the method is called without one, and the default `{}` is then destructured. -/
def Job.findAllVars (arg : Option JSObject) : FindAllVars :=
  let criteria : JSObject := arg.getD []
  let minSalary := criteria.get "minSalary"
  let hasEquity := criteria.get "hasEquity"
  let title := criteria.get "title"
  let querySql := findAllSelect
  let whereExpressions : List String := []
  let queryValues : List JSVal := []
  -- if (minSalary !== undefined)
  let queryValues :=
    if minSalary ≠ .undefined then queryValues ++ [minSalary] else queryValues
  let whereExpressions :=
    if minSalary ≠ .undefined then
      whereExpressions ++ ["salary >= $" ++ toString queryValues.length]
    else whereExpressions
  -- if (hasEquity === true)
  let whereExpressions :=
    if hasEquity = .bool true then whereExpressions ++ ["equity > 0"] else whereExpressions
  -- if (title !== undefined)
  let queryValues :=
    if title ≠ .undefined then queryValues ++ [.str ("%" ++ title.toStr ++ "%")]
    else queryValues
  let whereExpressions :=
    if title ≠ .undefined then
      whereExpressions ++ ["title ILIKE $" ++ toString queryValues.length]
    else whereExpressions
  -- if (whereExpressions.length > 0)
  let querySql :=
    if whereExpressions.length > 0 then
      querySql ++ (" WHERE " ++ " AND ".intercalate whereExpressions)
    else querySql
  let querySql := querySql ++ " ORDER BY title"
  { querySql := querySql, whereExpressions := whereExpressions, queryValues := queryValues }

/-- The method `Job.findAll(arg)`. -/
def Job.findAll {σ : Type} (db : Db σ) (arg : Option JSObject) (s : σ) :
    Outcome σ (List Row) :=
  let v := Job.findAllVars arg
  let jobsRes := db v.querySql v.queryValues s
  { result := .ok jobsRes.1, issued := [(v.querySql, v.queryValues)], state := jobsRes.2 }

/-! The model `models/job.js`: `Job.get` -/

/-- A property of the object returned by `Job.get`: a column value, or the nested
company row. -/
inductive Field where
  | val (v : JSVal)
  | row (r : Row)
  deriving DecidableEq, Repr

/-- The object returned by `Job.get`: its properties in order. -/
abbrev Record := List (String × Field)

/-- A database row seen as a record. -/
def Record.ofRow (r : Row) : Record := r.map (fun p => (p.1, Field.val p.2))

/-- The property read `o[k]` on a record, `none` when `o` has no property `k`. -/
def Record.get? (o : Record) (k : String) : Option Field := o.lookup k

/-- The statement `delete o[k]`. -/
def Record.delete (o : Record) (k : String) : Record := o.filter (fun p => p.1 != k)

/-- The assignment `o[k] = v`: overwrites the property in place, or adds it last. -/
def Record.set (o : Record) (k : String) (v : Field) : Record :=
  if o.any (fun p => p.1 == k) then o.map (fun p => if p.1 == k then (p.1, v) else p)
  else o ++ [(k, v)]

/-- The first statement of `Job.get`. -/
def getJobSql : String :=
  "\n" ++
  "    SELECT id, title, salary, equity, company_handle AS \"companyHandle\"\n" ++
  "    FROM jobs\n" ++
  "    WHERE id = $1"

/-- The second statement of `Job.get`. -/
def getCompanySql : String :=
  "SELECT handle,\n" ++
  "                name,\n" ++
  "                description,\n" ++
  "                num_employees AS \"numEmployees\",\n" ++
  "                logo_url AS \"logoUrl\"\n" ++
  "            FROM companies\n" ++
  "            WHERE handle = $1"

/-- The value of `rows[0]` as a property value: the row, or `undefined`. -/
def firstRowField (rows : List Row) : Field :=
  match rows.head? with
  | some r => .row r
  | none => .val .undefined

/-- The method `Job.get(id)`. -/
def Job.get {σ : Type} (db : Db σ) (id : JSVal) (s : σ) : Outcome σ Record :=
  let result := db getJobSql [id] s
  match result.1.head? with
  | none =>
    { result := .error (.NotFoundError ("Job " ++ id.toStr ++ " not found")),
      issued := [(getJobSql, [id])], state := result.2 }
  | some job =>
    let companiesRes := db getCompanySql [job.get "companyHandle"] result.2
    let job' := (Record.ofRow job).delete "companyHandle"
    let job' := job'.set "company" (firstRowField companiesRes.1)
    { result := .ok job',
      issued := [(getJobSql, [id]), (getCompanySql, [job.get "companyHandle"])],
      state := companiesRes.2 }

/-! The model `models/job.js`: `Job.update` and `Job.remove` -/

/-- The template literal `querySql` of `Job.update`. -/
def updateSql (setCols idVarIdx : String) : String :=
  "UPDATE jobs\n" ++
  "                        SET " ++ setCols ++ "\n" ++
  "                        WHERE id = " ++ idVarIdx ++ "\n" ++
  "                        RETURNING id,\n" ++
  "                                title,\n" ++
  "                                salary,\n" ++
  "                                equity,\n" ++
  "                                company_handle AS \"companyHandle\""

/-- The method `Job.update(id, data)`. -/
def Job.update {σ : Type} (db : Db σ) (id : JSVal) (data : JSObject) (s : σ) :
    Outcome σ Row :=
  match sqlForPartialUpdate data [] with
  | .error e => { result := .error e, issued := [], state := s }
  | .ok c =>
    let idVarIdx := "$" ++ toString (c.values.length + 1)
    let querySql := updateSql c.setCols idVarIdx
    let result := db querySql (c.values ++ [id]) s
    match result.1.head? with
    | none =>
      { result := .error (.NotFoundError ("No job posting: " ++ id.toStr)),
        issued := [(querySql, c.values ++ [id])], state := result.2 }
    | some job =>
      { result := .ok job, issued := [(querySql, c.values ++ [id])], state := result.2 }

/-- The statement of `Job.remove`. -/
def removeSql : String :=
  "DELETE\n" ++
  "            FROM jobs\n" ++
  "            WHERE id = $1\n" ++
  "            RETURNING id"

/-- The method `Job.remove(id)`, which resolves to no value. -/
def Job.remove {σ : Type} (db : Db σ) (id : JSVal) (s : σ) : Outcome σ Unit :=
  let result := db removeSql [id] s
  match result.1.head? with
  | none =>
    { result := .error (.NotFoundError ("No job with id: " ++ id.toStr)),
      issued := [(removeSql, [id])], state := result.2 }
  | some _ => { result := .ok (), issued := [(removeSql, [id])], state := result.2 }

/-! Vocabulary of the statements -/

/-- The number of positions of `s` at which `pat` occurs. -/
def occurrences (pat : List Char) : List Char → Nat
  | [] => 0
  | c :: cs => (if pat.isPrefixOf (c :: cs) then 1 else 0) + occurrences pat cs

/-! Auxiliary facts -/

theorem sql_test_valid_1_entry :
    sqlForPartialUpdate [("first_name", .str "test")] [("first_name", .str "first_name")]
      = .ok { setCols := "\"first_name\"=$1", values := [.str "test"] } := by
  rfl

theorem sql_test_valid_2_entry :
    sqlForPartialUpdate [("first_name", .str "testF"), ("last_name", .str "testL")]
        [("first_name", .str "first_name"), ("last_name", .str "last_name")]
      = .ok { setCols := "\"first_name\"=$1, \"last_name\"=$2",
              values := [.str "testF", .str "testL"] } := by
  rfl

theorem lookup_getElem_of_nodup (o : JSObject) (h : o.keys.Nodup) (i : Nat)
    (hi : i < o.length) : o.lookup (o[i]).1 = some (o[i]).2 := by
  induction o generalizing i with
  | nil => simp at hi
  | cons p t ih =>
    obtain ⟨k, v⟩ := p
    simp only [JSObject.keys, List.map_cons, List.nodup_cons, List.mem_map, not_exists,
      not_and] at h
    cases i with
    | zero => simp
    | succ j =>
      have hj : j < t.length := by simpa using hi
      have hne : (t[j]).1 ≠ k := fun e => h.1 (t[j]) (List.getElem_mem hj) e
      have hb : ((t[j]).1 == k) = false := by simpa using hne
      simp only [List.getElem_cons_succ, List.lookup_cons, hb]
      exact ih h.2 j hj

theorem sqlForPartialUpdate_ok (dataToUpdate jsToSql : JSObject) (hne : dataToUpdate ≠ []) :
    sqlForPartialUpdate dataToUpdate jsToSql =
      .ok { setCols := ", ".intercalate
              (dataToUpdate.keys.mapIdx (fun idx colName => colFragment jsToSql idx colName)),
            values := dataToUpdate.values } := by
  have hlen : dataToUpdate.keys.length ≠ 0 := by
    simpa [JSObject.keys] using hne
  simp [sqlForPartialUpdate, hlen]

theorem sqlForPartialUpdate_empty (jsToSql : JSObject) :
    sqlForPartialUpdate [] jsToSql = .error (.BadRequestError "No data") := by
  simp [sqlForPartialUpdate, JSObject.keys]

/-! The clause builder -/

/-- C1: for a payload with n >= 1 keys and any translation table,
`sqlForPartialUpdate` returns a `setCols` that is n fragments joined by ", ", the
i-th being the quoted column of the i-th key followed by `=$i` (counted from 1),
and a `values` of length n whose i-th element is the payload's value for the
i-th key. -/
theorem sqlForPartialUpdate_fragments (dataToUpdate jsToSql : JSObject)
    (hne : dataToUpdate ≠ []) (hwf : dataToUpdate.WellFormed) :
    ∃ c cols, sqlForPartialUpdate dataToUpdate jsToSql = .ok c ∧
      c.setCols = ", ".intercalate cols ∧
      cols.length = dataToUpdate.keys.length ∧
      c.values.length = dataToUpdate.keys.length ∧
      ∀ (i : Nat) (h : i < dataToUpdate.keys.length),
        cols[i]? = some ("\"" ++ columnFor jsToSql dataToUpdate.keys[i] ++ "\"=$"
          ++ toString (i + 1)) ∧
        c.values[i]? = dataToUpdate.lookup dataToUpdate.keys[i] := by
  refine ⟨_, _, sqlForPartialUpdate_ok dataToUpdate jsToSql hne, rfl, ?_, ?_, ?_⟩
  · simp
  · simp [JSObject.values, JSObject.keys]
  · intro i hi
    have hi' : i < dataToUpdate.length := by simpa [JSObject.keys] using hi
    refine ⟨?_, ?_⟩
    · simp [colFragment, List.getElem?_eq_getElem hi]
    · have h := lookup_getElem_of_nodup dataToUpdate hwf i hi'
      simp [JSObject.values, JSObject.keys, List.getElem?_eq_getElem hi', h]

theorem sqlForPartialUpdate_fragments_witness :
    ([("title", .str "New"), ("salary", .num 500)] : JSObject) ≠ [] ∧
    JSObject.WellFormed [("title", .str "New"), ("salary", .num 500)] ∧
    ∃ c cols, sqlForPartialUpdate [("title", .str "New"), ("salary", .num 500)] [] = .ok c ∧
      c.setCols = ", ".intercalate cols ∧
      cols[1]? = some "\"salary\"=$2" ∧
      c.values[1]? = some (.num 500) :=
  ⟨by decide, by decide, by
    obtain ⟨c, cols, h, hs, _, _, hi⟩ :=
      sqlForPartialUpdate_fragments [("title", .str "New"), ("salary", .num 500)] []
        (by decide) (by decide)
    exact ⟨c, cols, h, hs, (hi 1 (by decide)).1, (hi 1 (by decide)).2⟩⟩

/-- C2: for any translation table, `sqlForPartialUpdate` throws `BadRequestError`
exactly when the payload has no keys, and returns a result (so does not throw)
exactly when the payload has at least one key. -/
theorem sqlForPartialUpdate_throws_iff (dataToUpdate jsToSql : JSObject) :
    ((∃ e, sqlForPartialUpdate dataToUpdate jsToSql = .error e) ↔
        dataToUpdate.keys.length = 0) ∧
    (sqlForPartialUpdate dataToUpdate jsToSql = .error (.BadRequestError "No data") ↔
        dataToUpdate.keys.length = 0) ∧
    ((∃ c, sqlForPartialUpdate dataToUpdate jsToSql = .ok c) ↔
        1 ≤ dataToUpdate.keys.length) := by
  cases dataToUpdate with
  | nil => simp [sqlForPartialUpdate_empty, JSObject.keys]
  | cons p t =>
    have h := sqlForPartialUpdate_ok (p :: t) jsToSql (by simp)
    simp [h, JSObject.keys]

/-- C3 as stated fails: the table has the entry "" for the key `a`, and the
fragment names the column `a`, not the entry's value. -/
theorem sqlForPartialUpdate_empty_translation :
    ([("a", .str "")] : JSObject).lookup "a" = some (.str "") ∧
    sqlForPartialUpdate [("a", .num 1)] [("a", .str "")] =
      .ok { setCols := "\"a\"=$1", values := [.num 1] } ∧
    "\"a\"=$1" ≠ "\"" ++ (JSVal.str "").toStr ++ "\"=$" ++ toString (0 + 1) := by
  refine ⟨by rfl, by rfl, by decide⟩

/-- C3, amended: for a non-empty payload and any translation table, the i-th
fragment names the i-th key's column thus: the table's entry for the key,
converted to a string, when there is an entry and it is truthy; the key verbatim
when the entry is falsy (the empty string, 0, false, null, undefined); and the
key verbatim when the table has no entry for it and the key is not the name of a
member of `Object.prototype`. -/
theorem sqlForPartialUpdate_column_rule (dataToUpdate jsToSql : JSObject)
    (hne : dataToUpdate ≠ []) :
    ∃ c cols, sqlForPartialUpdate dataToUpdate jsToSql = .ok c ∧
      c.setCols = ", ".intercalate cols ∧
      cols.length = dataToUpdate.keys.length ∧
      ∀ (i : Nat) (h : i < dataToUpdate.keys.length),
        (∀ v, jsToSql.lookup dataToUpdate.keys[i] = some v → v.truthy = true →
          cols[i]? = some ("\"" ++ v.toStr ++ "\"=$" ++ toString (i + 1))) ∧
        (∀ v, jsToSql.lookup dataToUpdate.keys[i] = some v → v.truthy = false →
          cols[i]? = some ("\"" ++ dataToUpdate.keys[i] ++ "\"=$" ++ toString (i + 1))) ∧
        (jsToSql.lookup dataToUpdate.keys[i] = none →
          objectPrototypeText dataToUpdate.keys[i] = none →
          cols[i]? = some ("\"" ++ dataToUpdate.keys[i] ++ "\"=$" ++ toString (i + 1))) := by
  refine ⟨_, _, sqlForPartialUpdate_ok dataToUpdate jsToSql hne, rfl, by simp, ?_⟩
  intro i hi
  refine ⟨?_, ?_, ?_⟩
  · intro v hv ht
    simp [colFragment, columnFor, List.getElem?_eq_getElem hi, hv, ht]
  · intro v hv ht
    simp [colFragment, columnFor, List.getElem?_eq_getElem hi, hv, ht]
  · intro hv hp
    simp [colFragment, columnFor, List.getElem?_eq_getElem hi, hv, hp]

theorem sqlForPartialUpdate_column_rule_witness :
    ([("numEmployees", .num 3), ("name", .str "N")] : JSObject) ≠ [] ∧
    ∃ c cols, sqlForPartialUpdate [("numEmployees", .num 3), ("name", .str "N")]
        [("numEmployees", .str "num_employees")] = .ok c ∧
      c.setCols = ", ".intercalate cols ∧
      cols[0]? = some "\"num_employees\"=$1" ∧
      cols[1]? = some "\"name\"=$2" :=
  ⟨by decide, by
    obtain ⟨c, cols, h, hs, _, hi⟩ :=
      sqlForPartialUpdate_column_rule [("numEmployees", .num 3), ("name", .str "N")]
        [("numEmployees", .str "num_employees")] (by decide)
    have h0 := (hi 0 (by decide)).1 (.str "num_employees") (by rfl) (by rfl)
    have h1 := (hi 1 (by decide)).2.2 (by rfl) (by decide)
    exact ⟨c, cols, h, hs, h0, h1⟩⟩

/-! The filter builder of `Job.findAll` -/

/-- C4: the value list `Job.findAll` passes to the store is `minSalary` when it is
not `undefined` (0 included), then the string `"%" + title + "%"` when `title` is
not `undefined`; `hasEquity` contributes nothing.  So there are as many values as
fragments other than `equity > 0`, and the fragments `salary >= $n` and
`title ILIKE $n` carry the position (from 1) of their own value. -/
theorem findAll_values {σ : Type} (db : Db σ) (arg : Option JSObject) (s : σ) :
    let minSalary := (arg.getD []).get "minSalary"
    let title := (arg.getD []).get "title"
    let fromSalary := if minSalary = .undefined then [] else [minSalary]
    let fromTitle := if title = .undefined then [] else [JSVal.str ("%" ++ title.toStr ++ "%")]
    let v := Job.findAllVars arg
    (Job.findAll db arg s).issued.map Prod.snd = [fromSalary ++ fromTitle] ∧
    v.queryValues = fromSalary ++ fromTitle ∧
    (v.whereExpressions.filter (fun e => e ≠ "equity > 0")).length = v.queryValues.length ∧
    v.whereExpressions.filter (fun e => e ≠ "equity > 0") =
      (if minSalary = .undefined then [] else ["salary >= $" ++ toString 1]) ++
      (if title = .undefined then [] else ["title ILIKE $" ++ toString (fromSalary.length + 1)]) ∧
    (if minSalary = .undefined then True else v.queryValues[1 - 1]? = some minSalary) ∧
    (if title = .undefined then True
      else v.queryValues[fromSalary.length + 1 - 1]? = some (.str ("%" ++ title.toStr ++ "%"))) := by
  intro minSalary title fromSalary fromTitle v
  by_cases h1 : (arg.getD []).get "minSalary" = .undefined <;>
  by_cases h2 : (arg.getD []).get "hasEquity" = .bool true <;>
  by_cases h3 : (arg.getD []).get "title" = .undefined <;>
  simp [v, fromSalary, fromTitle, minSalary, title, Job.findAll, Job.findAllVars, h1, h2, h3] <;>
  decide

set_option maxRecDepth 1000000 in
theorem findAllSelect_equity_once :
    occurrences "equity".toList findAllSelect.toList = 1 := by
  rfl

theorem findAllVars_querySql (arg : Option JSObject) :
    (Job.findAllVars arg).querySql =
      findAllSelect ++
      (if (Job.findAllVars arg).whereExpressions = [] then ""
        else " WHERE " ++ " AND ".intercalate (Job.findAllVars arg).whereExpressions) ++
      " ORDER BY title" := by
  by_cases h1 : (arg.getD []).get "minSalary" = .undefined <;>
  by_cases h2 : (arg.getD []).get "hasEquity" = .bool true <;>
  by_cases h3 : (arg.getD []).get "title" = .undefined <;>
  simp [Job.findAllVars, h1, h2, h3, String.append_assoc]

theorem findAllVars_whereExpressions (arg : Option JSObject) :
    (Job.findAllVars arg).whereExpressions =
      (if (arg.getD []).get "minSalary" = .undefined then [] else ["salary >= $1"]) ++
      (if (arg.getD []).get "hasEquity" = .bool true then ["equity > 0"] else []) ++
      (if (arg.getD []).get "title" = .undefined then []
        else [if (arg.getD []).get "minSalary" = .undefined then "title ILIKE $1"
              else "title ILIKE $2"]) := by
  by_cases h1 : (arg.getD []).get "minSalary" = .undefined <;>
  by_cases h2 : (arg.getD []).get "hasEquity" = .bool true <;>
  by_cases h3 : (arg.getD []).get "title" = .undefined <;>
  simp [Job.findAllVars, h1, h2, h3] <;> decide

theorem findAllVars_queryValues (arg : Option JSObject) :
    (Job.findAllVars arg).queryValues =
      (if (arg.getD []).get "minSalary" = .undefined then []
        else [(arg.getD []).get "minSalary"]) ++
      (if (arg.getD []).get "title" = .undefined then []
        else [JSVal.str ("%" ++ ((arg.getD []).get "title").toStr ++ "%")]) := by
  by_cases h1 : (arg.getD []).get "minSalary" = .undefined <;>
  by_cases h3 : (arg.getD []).get "title" = .undefined <;>
  simp [Job.findAllVars, h1, h3]

theorem get_minSalary_of_pair (a b : JSVal) :
    JSObject.get [("minSalary", a), ("title", b)] "minSalary" = a := by
  simp [JSObject.get, List.lookup]

theorem get_title_of_pair (a b : JSVal) :
    JSObject.get [("minSalary", a), ("title", b)] "title" = b := by
  simp [JSObject.get, List.lookup]

set_option maxRecDepth 1000000 in
/-- C5: the statement built by `Job.findAll` contains `equity > 0` exactly once when
`hasEquity` is the boolean `true`, and otherwise contains no equity constraint: the
word `equity` then occurs in the projection list only.  In both cases the bound
values are those of the same criteria without `hasEquity`. -/
theorem findAll_equity {σ : Type} (db : Db σ) (arg : Option JSObject) (s : σ) :
    let hasEquity := (arg.getD []).get "hasEquity"
    let v := Job.findAllVars arg
    (Job.findAll db arg s).issued = [(v.querySql, v.queryValues)] ∧
    occurrences "equity > 0".toList v.querySql.toList
      = (if hasEquity = .bool true then 1 else 0) ∧
    occurrences "equity".toList v.querySql.toList
      = occurrences "equity".toList findAllSelect.toList
        + (if hasEquity = .bool true then 1 else 0) ∧
    v.whereExpressions.count "equity > 0" = (if hasEquity = .bool true then 1 else 0) ∧
    v.queryValues =
      (Job.findAllVars (some [("minSalary", (arg.getD []).get "minSalary"),
        ("title", (arg.getD []).get "title")])).queryValues := by
  intro hasEquity v
  refine ⟨rfl, ?_, ?_, ?_, ?_⟩
  · simp only [v, hasEquity, findAllVars_querySql, findAllVars_whereExpressions]
    by_cases h1 : (arg.getD []).get "minSalary" = .undefined <;>
    by_cases h2 : (arg.getD []).get "hasEquity" = .bool true <;>
    by_cases h3 : (arg.getD []).get "title" = .undefined <;>
    simp only [if_pos, if_neg, h1, h2, h3, not_false_eq_true] <;> rfl
  · simp only [v, hasEquity, findAllVars_querySql, findAllVars_whereExpressions]
    by_cases h1 : (arg.getD []).get "minSalary" = .undefined <;>
    by_cases h2 : (arg.getD []).get "hasEquity" = .bool true <;>
    by_cases h3 : (arg.getD []).get "title" = .undefined <;>
    simp only [if_pos, if_neg, h1, h2, h3, not_false_eq_true] <;> rfl
  · simp only [v, hasEquity, findAllVars_whereExpressions]
    by_cases h1 : (arg.getD []).get "minSalary" = .undefined <;>
    by_cases h2 : (arg.getD []).get "hasEquity" = .bool true <;>
    by_cases h3 : (arg.getD []).get "title" = .undefined <;>
    simp only [if_pos, if_neg, h1, h2, h3, not_false_eq_true] <;> rfl
  · simp only [v, findAllVars_queryValues, Option.getD_some, get_minSalary_of_pair,
      get_title_of_pair]

/-- C6: the statement text issued by `Job.findAll` is the base SELECT, then the
WHERE part, then " ORDER BY title"; the WHERE part is empty when no filter applies
(`minSalary` undefined, `hasEquity` not `true`, `title` undefined, as in a call
without argument) and otherwise " WHERE " followed by the applicable fragments in
the order salary, equity, title, joined by " AND ". -/
theorem findAll_statement {σ : Type} (db : Db σ) (arg : Option JSObject) (s : σ) :
    let minSalary := (arg.getD []).get "minSalary"
    let hasEquity := (arg.getD []).get "hasEquity"
    let title := (arg.getD []).get "title"
    let fragments : List String :=
      (if minSalary = .undefined then [] else ["salary >= $1"]) ++
      (if hasEquity = .bool true then ["equity > 0"] else []) ++
      (if title = .undefined then []
        else [if minSalary = .undefined then "title ILIKE $1" else "title ILIKE $2"])
    let wherePart : String :=
      if minSalary = .undefined ∧ hasEquity ≠ .bool true ∧ title = .undefined then ""
      else " WHERE " ++ " AND ".intercalate fragments
    (Job.findAll db arg s).issued.map Prod.fst
      = [findAllSelect ++ wherePart ++ " ORDER BY title"] ∧
    (Job.findAll db none s).issued.map Prod.fst
      = [findAllSelect ++ "" ++ " ORDER BY title"] := by
  intro minSalary hasEquity title fragments wherePart
  refine ⟨?_, ?_⟩
  · simp only [Job.findAll, List.map_cons, List.map_nil, findAllVars_querySql,
      findAllVars_whereExpressions, wherePart, fragments, minSalary, hasEquity, title]
    by_cases h1 : (arg.getD []).get "minSalary" = .undefined <;>
    by_cases h2 : (arg.getD []).get "hasEquity" = .bool true <;>
    by_cases h3 : (arg.getD []).get "title" = .undefined <;>
    simp [h1, h2, h3]
  · simp only [Job.findAll, List.map_cons, List.map_nil, findAllVars_querySql,
      findAllVars_whereExpressions]
    simp [JSObject.get]

/-! The statement of `Job.update` -/

theorem columnFor_nil (colName : String) (h : objectPrototypeText colName = none) :
    columnFor [] colName = colName := by
  simp [columnFor, h]

theorem named_keys_not_inherited :
    objectPrototypeText "minSalary" = none ∧ objectPrototypeText "hasEquity" = none ∧
    objectPrototypeText "title" = none ∧ objectPrototypeText "companyHandle" = none := by
  decide

theorem objectPrototypeText_of_job_field (k : String)
    (h : k = "title" ∨ k = "salary" ∨ k = "equity") : objectPrototypeText k = none := by
  rcases h with h | h | h <;> subst h <;> decide

theorem updateSql_dollar (setCols n : String) :
    updateSql setCols ("$" ++ n) =
      "UPDATE jobs\n" ++
      "                        SET " ++ setCols ++ "\n" ++
      "                        WHERE id = $" ++ n ++ "\n" ++
      "                        RETURNING id,\n" ++
      "                                title,\n" ++
      "                                salary,\n" ++
      "                                equity,\n" ++
      "                                company_handle AS \"companyHandle\"" := by
  have h : "                        WHERE id = " ++ "$" =
      "                        WHERE id = $" := by decide
  simp only [updateSql, String.append_assoc]
  rw [← String.append_assoc "                        WHERE id = " "$", h]

/-- The statement `Job.update` issues for a payload with n >= 1 keys none of which
names a member of `Object.prototype`: the SET clause is the `setCols` of
`sqlForPartialUpdate(data, {})` and quotes every key verbatim, the condition is
`WHERE id = $(n+1)`, and the parameters are the payload's n values in key order
followed by the id, the (n+1)-th. -/
theorem update_statement_of_own_keys {σ : Type} (db : Db σ) (id : JSVal) (data : JSObject)
    (s : σ) (hne : data ≠ []) (hown : ∀ k ∈ data.keys, objectPrototypeText k = none) :
    ∃ setCols : String,
      sqlForPartialUpdate data [] = .ok { setCols := setCols, values := data.values } ∧
      setCols = ", ".intercalate
        (data.keys.mapIdx (fun i k => "\"" ++ k ++ "\"=$" ++ toString (i + 1))) ∧
      (Job.update db id data s).issued =
        [("UPDATE jobs\n" ++
          "                        SET " ++ setCols ++ "\n" ++
          "                        WHERE id = $" ++ toString (data.keys.length + 1) ++ "\n" ++
          "                        RETURNING id,\n" ++
          "                                title,\n" ++
          "                                salary,\n" ++
          "                                equity,\n" ++
          "                                company_handle AS \"companyHandle\"",
          data.values ++ [id])] ∧
      (data.values ++ [id]).length = data.keys.length + 1 ∧
      (data.values ++ [id])[data.keys.length]? = some id := by
  have hok := sqlForPartialUpdate_ok data [] hne
  have hlen : data.values.length = data.keys.length := by
    simp [JSObject.values, JSObject.keys]
  have hcols : data.keys.mapIdx (fun idx colName => colFragment [] idx colName) =
      data.keys.mapIdx (fun i k => "\"" ++ k ++ "\"=$" ++ toString (i + 1)) := by
    apply List.ext_getElem?
    intro i
    simp only [List.getElem?_mapIdx]
    cases hk : data.keys[i]? with
    | none => rfl
    | some k =>
      have hmem : k ∈ data.keys := List.getElem?_mem hk
      simp [colFragment, columnFor_nil k (hown k hmem)]
  refine ⟨_, hok, ?_, ?_, ?_, ?_⟩
  · rw [hcols]
  · simp only [Job.update, hok]
    cases h : (db _ _ s).1.head? <;>
      simp [h, updateSql_dollar, hlen]
  · simp [hlen]
  · simp [← hlen]

set_option maxRecDepth 1000000 in
/-- C7 fails on the code at the payload with the single key `toString`: the read
`jsToSql[colName]` on the empty table finds the function `Object.prototype.toString`,
which is truthy, so the SET clause of the statement `Job.update` issues names the
column by that function's source text and not by the key `toString`. -/
theorem update_inherited_key :
    sqlForPartialUpdate [("toString", .str "x")] [] =
      .ok { setCols := "\"function toString() \x7b [native code] \x7d\"=$1",
            values := [.str "x"] } ∧
    (Job.update (fun _ _ (_ : Unit) => ([], ())) (.num 1)
        [("toString", .str "x")] ()).issued =
      [("UPDATE jobs\n" ++
        "                        SET \"function toString() \x7b [native code] \x7d\"=$1\n" ++
        "                        WHERE id = $2\n" ++
        "                        RETURNING id,\n" ++
        "                                title,\n" ++
        "                                salary,\n" ++
        "                                equity,\n" ++
        "                                company_handle AS \"companyHandle\"",
        [.str "x", .num 1])] ∧
    "\"function toString() \x7b [native code] \x7d\"=$1" ≠ "\"toString\"=$1" := by
  refine ⟨by rfl, by rfl, by decide⟩

/-- C8: for every job id, `Job.update(id, {})` fails with `BadRequestError`, issues
no statement, and leaves the store in the state it found. -/
theorem update_empty {σ : Type} (db : Db σ) (id : JSVal) (s : σ) :
    (Job.update db id [] s).result = .error (.BadRequestError "No data") ∧
    (Job.update db id [] s).issued = [] ∧
    (Job.update db id [] s).state = s := by
  simp [Job.update, sqlForPartialUpdate_empty]

/-! Existence checks -/

/-- C9: with the store a function of statement and parameters, each of
`Job.get(id)`, `Job.update(id, data)` with non-empty `data`, and `Job.remove(id)`
fails, and then with `NotFoundError`, exactly when the store returns no row for its
statement; in that case `get` issues no second statement, and when a row is
returned `remove` completes with no value. -/
theorem notFound_iff {σ : Type} (db : Db σ) (id : JSVal) (data : JSObject) (s : σ)
    (hne : data ≠ []) :
    (((Job.get db id s).result = .error (.NotFoundError ("Job " ++ id.toStr ++ " not found"))
        ↔ (db getJobSql [id] s).1 = []) ∧
      ((∃ e, (Job.get db id s).result = .error e) ↔ (db getJobSql [id] s).1 = []) ∧
      ((db getJobSql [id] s).1 = [] → (Job.get db id s).issued = [(getJobSql, [id])])) ∧
    (∃ sql params, (Job.update db id data s).issued = [(sql, params)] ∧
      ((Job.update db id data s).result
          = .error (.NotFoundError ("No job posting: " ++ id.toStr))
        ↔ (db sql params s).1 = []) ∧
      ((∃ e, (Job.update db id data s).result = .error e) ↔ (db sql params s).1 = [])) ∧
    (((Job.remove db id s).result = .error (.NotFoundError ("No job with id: " ++ id.toStr))
        ↔ (db removeSql [id] s).1 = []) ∧
      ((∃ e, (Job.remove db id s).result = .error e) ↔ (db removeSql [id] s).1 = []) ∧
      ((db removeSql [id] s).1 ≠ [] → (Job.remove db id s).result = .ok ())) := by
  refine ⟨?_, ?_, ?_⟩
  · cases h : (db getJobSql [id] s).1 <;> simp [Job.get, h]
  · have hok := sqlForPartialUpdate_ok data [] hne
    refine ⟨updateSql (", ".intercalate (data.keys.mapIdx (colFragment [])))
      ("$" ++ toString (data.values.length + 1)), data.values ++ [id], ?_⟩
    cases h : (db (updateSql (", ".intercalate (data.keys.mapIdx (colFragment [])))
      ("$" ++ toString (data.values.length + 1))) (data.values ++ [id]) s).1 <;>
      simp [Job.update, hok, h]
  · cases h : (db removeSql [id] s).1 <;> simp [Job.remove, h]

theorem notFound_iff_witness :
    ([("title", .str "test")] : JSObject) ≠ [] ∧
    (Job.get (fun _ _ (_ : Unit) => ([], ())) (.num 0) ()).result
      = .error (.NotFoundError ("Job " ++ (JSVal.num 0).toStr ++ " not found")) :=
  ⟨by decide,
    (notFound_iff (fun _ _ (_ : Unit) => ([], ())) (.num 0) [("title", .str "test")] ()
      (by decide)).1.1.mpr rfl⟩

/-! The record returned by `Job.get` -/

theorem beq_false_of_ne_symm {a b : String} (h : a ≠ b) : (b == a) = false := by
  simpa using fun e : b = a => h e.symm

theorem Record.get?_ofRow (r : Row) (k : String) :
    (Record.ofRow r).get? k = (r.lookup k).map Field.val := by
  induction r with
  | nil => rfl
  | cons p t ih =>
    obtain ⟨a, b⟩ := p
    simp only [Record.get?, Record.ofRow, List.map_cons, List.lookup_cons] at ih ⊢
    cases k == a <;> simp [ih]

theorem Record.get?_delete_self (o : Record) (k : String) : (o.delete k).get? k = none := by
  induction o with
  | nil => rfl
  | cons p t ih =>
    obtain ⟨a, b⟩ := p
    simp only [Record.get?, Record.delete, List.filter_cons] at ih ⊢
    by_cases h : a = k
    · simp [h, ih]
    · simp only [bne_iff_ne, ne_eq, h, not_false_eq_true, decide_True, if_true,
        List.lookup_cons, beq_false_of_ne_symm h, ih]

theorem Record.get?_delete_of_ne (o : Record) (k k' : String) (hne : k' ≠ k) :
    (o.delete k).get? k' = o.get? k' := by
  induction o with
  | nil => rfl
  | cons p t ih =>
    obtain ⟨a, b⟩ := p
    simp only [Record.get?, Record.delete, List.filter_cons] at ih ⊢
    by_cases h : a = k
    · have hk : (k' == k) = false := by simpa using hne
      simp [h, List.lookup_cons, hk, ih]
    · simp only [bne_iff_ne, ne_eq, h, not_false_eq_true, decide_True, if_true,
        List.lookup_cons, ih]

theorem lookup_map_overwrite (o : Record) (k k' : String) (v : Field) (hne : k' ≠ k) :
    (o.map (fun p => if p.1 == k then (p.1, v) else p)).lookup k' = o.lookup k' := by
  induction o with
  | nil => rfl
  | cons p t ih =>
    obtain ⟨a, b⟩ := p
    have hk : (k' == k) = false := by simpa using hne
    by_cases h : a = k
    · simpa [h, List.lookup_cons, hk] using ih
    · simp only [List.map_cons, beq_iff_eq, h, if_false, List.lookup_cons]
      simp only [beq_iff_eq] at ih
      rw [ih]

theorem lookup_map_overwrite_self (o : Record) (k : String) (v : Field)
    (h : o.any (fun p => p.1 == k) = true) :
    (o.map (fun p => if p.1 == k then (p.1, v) else p)).lookup k = some v := by
  induction o with
  | nil => simp at h
  | cons p t ih =>
    obtain ⟨a, b⟩ := p
    simp only [List.map_cons]
    by_cases hp : a = k
    · simp [hp]
    · have ht : t.any (fun p => p.1 == k) = true := by simpa [hp] using h
      simpa [hp, List.lookup_cons, beq_false_of_ne_symm hp] using ih ht

theorem lookup_append_single (o : Record) (k k' : String) (v : Field) :
    (o ++ [(k, v)]).lookup k' = (o.lookup k').or (if k' = k then some v else none) := by
  induction o with
  | nil =>
    by_cases h : k' = k
    · simp [List.lookup_cons, h]
    · have hk : (k' == k) = false := by simpa using h
      simp [List.lookup_cons, h, hk]
  | cons p t ih =>
    obtain ⟨a, b⟩ := p
    simp only [List.cons_append, List.lookup_cons, ih]
    cases k' == a <;> simp

theorem lookup_eq_none_of_not_any (o : Record) (k : String)
    (h : ¬ o.any (fun p => p.1 == k) = true) : o.lookup k = none := by
  induction o with
  | nil => rfl
  | cons p t ih =>
    obtain ⟨a, b⟩ := p
    simp only [List.any_cons, Bool.or_eq_true, not_or, beq_iff_eq] at h
    simp [List.lookup_cons, beq_false_of_ne_symm h.1, ih h.2]

theorem Record.get?_set_self (o : Record) (k : String) (v : Field) :
    (o.set k v).get? k = some v := by
  unfold Record.set Record.get?
  split
  · next h => exact lookup_map_overwrite_self o k v h
  · next h => simp [lookup_append_single, lookup_eq_none_of_not_any o k h]

theorem Record.get?_set_of_ne (o : Record) (k k' : String) (v : Field) (hne : k' ≠ k) :
    (o.set k v).get? k' = o.get? k' := by
  unfold Record.set Record.get?
  split
  · exact lookup_map_overwrite o k k' v hne
  · simp [lookup_append_single, hne]

theorem Record.keys_set_delete (o : Record) (k k' : String) (v : Field) (hne : k' ≠ k) :
    k ∉ ((o.delete k).set k' v).map Prod.fst := by
  unfold Record.set Record.delete
  split
  · simp only [List.map_map, List.mem_map, List.mem_filter, Function.comp]
    rintro ⟨p, ⟨_, hp⟩, he⟩
    have hp' : p.1 ≠ k := by simpa using hp
    by_cases hq : p.1 = k'
    · simp [hq] at he
      exact hne he
    · simp [hq] at he
      exact hp' he
  · simp only [List.map_append, List.mem_append, List.mem_map, List.mem_filter]
    rintro (⟨p, ⟨_, hp⟩, he⟩ | h)
    · exact (by simpa using hp : p.1 ≠ k) he
    · simp at h
      exact hne h

/-- C10: when the job lookup returns a row `r`, `Job.get(id)` returns a record with
`r`'s `id`, `title`, `salary` and `equity` unchanged, without a `companyHandle`
field, and with a `company` field holding the first row the store returns for the
company lookup keyed by `r.companyHandle` (`undefined` if it returns none). -/
theorem get_record {σ : Type} (db : Db σ) (id : JSVal) (s : σ) (r : Row) (rest : List Row)
    (hrow : (db getJobSql [id] s).1 = r :: rest) :
    ∃ job : Record, (Job.get db id s).result = .ok job ∧
      job.get? "id" = (r.lookup "id").map Field.val ∧
      job.get? "title" = (r.lookup "title").map Field.val ∧
      job.get? "salary" = (r.lookup "salary").map Field.val ∧
      job.get? "equity" = (r.lookup "equity").map Field.val ∧
      job.get? "companyHandle" = none ∧
      "companyHandle" ∉ job.map Prod.fst ∧
      (Job.get db id s).issued =
        [(getJobSql, [id]), (getCompanySql, [r.get "companyHandle"])] ∧
      job.get? "company" =
        (match (db getCompanySql [r.get "companyHandle"] (db getJobSql [id] s).2).1 with
          | c :: _ => some (Field.row c)
          | [] => some (Field.val .undefined)) := by
  refine ⟨((Record.ofRow r).delete "companyHandle").set "company"
      (firstRowField (db getCompanySql [r.get "companyHandle"] (db getJobSql [id] s).2).1),
    by simp [Job.get, hrow], ?_, ?_, ?_, ?_, ?_, ?_, by simp [Job.get, hrow], ?_⟩
  · rw [Record.get?_set_of_ne _ _ _ _ (by decide), Record.get?_delete_of_ne _ _ _ (by decide),
      Record.get?_ofRow]
  · rw [Record.get?_set_of_ne _ _ _ _ (by decide), Record.get?_delete_of_ne _ _ _ (by decide),
      Record.get?_ofRow]
  · rw [Record.get?_set_of_ne _ _ _ _ (by decide), Record.get?_delete_of_ne _ _ _ (by decide),
      Record.get?_ofRow]
  · rw [Record.get?_set_of_ne _ _ _ _ (by decide), Record.get?_delete_of_ne _ _ _ (by decide),
      Record.get?_ofRow]
  · rw [Record.get?_set_of_ne _ _ _ _ (by decide), Record.get?_delete_self]
  · exact Record.keys_set_delete _ _ _ _ (by decide)
  · rw [Record.get?_set_self]
    cases (db getCompanySql [r.get "companyHandle"] (db getJobSql [id] s).2).1 <;>
      simp [firstRowField]

theorem get_record_witness :
    ∃ job : Record,
      (Job.get (fun (text : String) _ (_ : Unit) =>
          if text = getJobSql then
            ([[("id", .num 1), ("title", .str "Job1"), ("salary", .num 100),
               ("equity", .str "0.1"), ("companyHandle", .str "c1")]], ())
          else ([[("handle", .str "c1"), ("name", .str "C1")]], ()))
        (.num 1) ()).result = .ok job ∧
      job.get? "title" = some (.val (.str "Job1")) ∧
      job.get? "company" = some (.row [("handle", .str "c1"), ("name", .str "C1")]) := by
  obtain ⟨job, h, _, ht, _, _, _, _, _, hc⟩ :=
    get_record (fun (text : String) _ (_ : Unit) =>
        if text = getJobSql then
          ([[("id", .num 1), ("title", .str "Job1"), ("salary", .num 100),
             ("equity", .str "0.1"), ("companyHandle", .str "c1")]], ())
        else ([[("handle", .str "c1"), ("name", .str "C1")]], ()))
      (.num 1) ()
      [("id", .num 1), ("title", .str "Job1"), ("salary", .num 100),
        ("equity", .str "0.1"), ("companyHandle", .str "c1")] [] (by simp)
  refine ⟨job, h, ?_, ?_⟩
  · rw [ht]; rfl
  · rw [hc]
    have hne : getCompanySql ≠ getJobSql := by decide
    simp [hne]

/-! The columns assigned by `Job.update` -/

theorem update_issued {σ : Type} (db : Db σ) (id : JSVal) (data : JSObject) (s : σ)
    (hne : data ≠ []) :
    (Job.update db id data s).issued =
      [(updateSql (", ".intercalate (data.keys.mapIdx (colFragment [])))
          ("$" ++ toString (data.values.length + 1)), data.values ++ [id])] := by
  have hok := sqlForPartialUpdate_ok data [] hne
  simp only [Job.update, hok]
  cases h : (db (updateSql (", ".intercalate (data.keys.mapIdx (colFragment [])))
    ("$" ++ toString (data.values.length + 1))) (data.values ++ [id]) s).1.head? <;> rfl

set_option maxRecDepth 1000000 in
/-- The method `Job.update` does not check the keys of `data` itself: handed a key
outside the documented `title`, `salary`, `equity`, here `company_handle` or `id`,
it issues a statement that assigns that column. -/
theorem update_unchecked_keys :
    (Job.update (fun _ _ (_ : Unit) => ([], ())) (.num 1)
        [("company_handle", .str "c2")] ()).issued =
      [("UPDATE jobs\n" ++
        "                        SET \"company_handle\"=$1\n" ++
        "                        WHERE id = $2\n" ++
        "                        RETURNING id,\n" ++
        "                                title,\n" ++
        "                                salary,\n" ++
        "                                equity,\n" ++
        "                                company_handle AS \"companyHandle\"",
        [.str "c2", .num 1])] ∧
    (Job.update (fun _ _ (_ : Unit) => ([], ())) (.num 1)
        [("id", .num 99)] ()).issued =
      [("UPDATE jobs\n" ++
        "                        SET \"id\"=$1\n" ++
        "                        WHERE id = $2\n" ++
        "                        RETURNING id,\n" ++
        "                                title,\n" ++
        "                                salary,\n" ++
        "                                equity,\n" ++
        "                                company_handle AS \"companyHandle\"",
        [.num 99, .num 1])] := by
  refine ⟨?_, ?_⟩ <;> rfl

/-- C11: for every job id and every non-empty update payload, which by the data
model maps a subset of `title`, `salary`, `equity` to new values, the one statement
`Job.update` issues assigns exactly the payload's keys and so no column other than
`title`, `salary` and `equity`: it never assigns `company_handle` or `id`. -/
theorem update_assigned_columns {σ : Type} (db : Db σ) (id : JSVal) (data : JSObject)
    (s : σ) (hne : data ≠ [])
    (hkeys : ∀ k ∈ data.keys, k = "title" ∨ k = "salary" ∨ k = "equity") :
    ∃ cols : List String,
      (Job.update db id data s).issued =
        [("UPDATE jobs\n" ++
          "                        SET " ++ ", ".intercalate cols ++ "\n" ++
          "                        WHERE id = $" ++ toString (data.keys.length + 1) ++ "\n" ++
          "                        RETURNING id,\n" ++
          "                                title,\n" ++
          "                                salary,\n" ++
          "                                equity,\n" ++
          "                                company_handle AS \"companyHandle\"",
          data.values ++ [id])] ∧
      cols.length = data.keys.length ∧
      ∀ (i : Nat) (h : i < data.keys.length),
        cols[i]? = some ("\"" ++ data.keys[i] ++ "\"=$" ++ toString (i + 1)) ∧
        (data.keys[i] = "title" ∨ data.keys[i] = "salary" ∨ data.keys[i] = "equity") ∧
        data.keys[i] ≠ "company_handle" ∧ data.keys[i] ≠ "id" := by
  have hlen : data.values.length = data.keys.length := by
    simp [JSObject.values, JSObject.keys]
  refine ⟨data.keys.mapIdx (colFragment []), ?_, by simp, ?_⟩
  · rw [update_issued db id data s hne, updateSql_dollar, hlen]
  · intro i hi
    have hmem := hkeys data.keys[i] (List.getElem_mem hi)
    have hown := objectPrototypeText_of_job_field data.keys[i] hmem
    refine ⟨by simp [colFragment, columnFor_nil _ hown, List.getElem?_eq_getElem hi],
      hmem, ?_, ?_⟩
    · rcases hmem with h | h | h <;> rw [h] <;> decide
    · rcases hmem with h | h | h <;> rw [h] <;> decide

theorem update_assigned_columns_witness :
    ([("title", .str "New"), ("salary", .num 500)] : JSObject) ≠ [] ∧
    (∀ k ∈ JSObject.keys [("title", .str "New"), ("salary", .num 500)],
      k = "title" ∨ k = "salary" ∨ k = "equity") ∧
    ∃ cols : List String,
      ((Job.update (fun _ _ (_ : Unit) => ([], ())) (.num 1)
          [("title", .str "New"), ("salary", .num 500)] ()).issued.map Prod.snd)
        = [[.str "New", .num 500, .num 1]] ∧
      cols[0]? = some "\"title\"=$1" ∧
      cols[1]? = some "\"salary\"=$2" :=
  ⟨by decide, by decide, by
    obtain ⟨cols, h, _, hi⟩ := update_assigned_columns (fun _ _ (_ : Unit) => ([], ()))
      (.num 1) [("title", .str "New"), ("salary", .num 500)] () (by decide) (by decide)
    refine ⟨cols, ?_, (hi 0 (by decide)).1, (hi 1 (by decide)).1⟩
    rw [h]
    rfl⟩

/-! The statement text of `Job.findAll` and the caller's values -/

/-- C12: two search criteria that agree on whether `minSalary` is undefined, on
whether `hasEquity` is the boolean `true` and on whether `title` is undefined make
`Job.findAll` issue the same statement text, whatever the values of `minSalary` and
`title` are, and against whatever store. -/
theorem findAll_text_independent {σ τ : Type} (db : Db σ) (db' : Db τ)
    (a b : Option JSObject) (s : σ) (s' : τ)
    (h1 : (a.getD []).get "minSalary" = .undefined ↔ (b.getD []).get "minSalary" = .undefined)
    (h2 : (a.getD []).get "hasEquity" = .bool true ↔ (b.getD []).get "hasEquity" = .bool true)
    (h3 : (a.getD []).get "title" = .undefined ↔ (b.getD []).get "title" = .undefined) :
    (Job.findAll db a s).issued.map Prod.fst = (Job.findAll db' b s').issued.map Prod.fst := by
  simp only [Job.findAll, List.map_cons, List.map_nil, findAllVars_querySql,
    findAllVars_whereExpressions, h1, h2, h3]

theorem findAll_text_independent_witness :
    (Job.findAll (fun _ _ (_ : Unit) => ([], ()))
        (some [("minSalary", .num 100), ("title", .str "Job1")]) ()).issued.map Prod.fst =
    (Job.findAll (fun _ _ (_ : Unit) => ([], ()))
        (some [("minSalary", .num 0), ("title", .str "0; DROP TABLE jobs")]) ()).issued.map
      Prod.fst :=
  findAll_text_independent (fun _ _ (_ : Unit) => ([], ())) (fun _ _ (_ : Unit) => ([], ()))
    (some [("minSalary", .num 100), ("title", .str "Job1")])
    (some [("minSalary", .num 0), ("title", .str "0; DROP TABLE jobs")]) () ()
    (by decide) (by decide) (by decide)

end Jobly
